import Mathlib

/-!
Verification of the external pointer table (`src/sandbox/external-pointer-table-inl.h`)
and the string-set shape (`src/objects/string-set-inl.h`) of this repository.

The table logic (Get/Set/Exchange, freelist allocation, marking and compaction)
is embedded from the `-inl.h` source. The `Entry` bit encoding, the
handle/index scaling and the compaction marker constants live in
`external-pointer-table.h`, which is not part of the excerpt; those are
modelled from the spec (each such definition says so in its doc comment).
Concurrency is modelled by making every atomic read-modify-write step an
explicit function of the observed state, so that interference can be
expressed by varying the observed entry (see `relaxedCompareAndSwapEntry`).
-/

/-- Modelled from the spec: the null handle (value 0) never resolves to a
valid entry (`kNullExternalPointerHandle`). -/
def kNullExternalPointerHandle : Nat := 0

/-- Modelled from the spec: a tag carries, as its high bit, a "marked" flag
(`kExternalPointerMarkBit` from external-pointer-table.h, missing from the
excerpt). The entry word is 64 bits wide, so the mark bit is bit 63. -/
def kExternalPointerMarkBit : Nat := 2 ^ 63

/-- Modelled from the spec: tag bits and mark bit never collide with the raw
pointer's low bits; the tag mask occupies the high 16 bits of the 64-bit
entry word (`kExternalPointerTagMask`, missing from the excerpt). -/
def kExternalPointerTagMask : Nat := 0xffff000000000000

/-- Modelled from the spec: handle-to-index and index-to-handle are a fixed,
invertible scaling, handle = index × constant, where the constant reserves
encoding space (e.g. for the low visited-marker bit used in debug builds). -/
def kHandleFactor : Nat := 2

/-- Modelled from the spec: sentinel value of the evacuation-boundary word
meaning "not compacting" (`kNotCompactingMarker`, missing from the excerpt). -/
def kNotCompactingMarker : Nat := 2 ^ 32 - 1

/-- Modelled from the spec: the abort marker OR-ed into the boundary word when
compaction is aborted during marking (`kCompactionAbortedMarker`, missing
from the excerpt); a high bit above any valid table index. -/
def kCompactionAbortedMarker : Nat := 2 ^ 31

/-- Modelled from the spec: one table slot is, at any instant, exactly one of
three mutually exclusive shapes — a regular entry (tagged pointer value plus
mark bit carried inside the tag), a freelist node (next-free index plus the
count of free entries reachable from this node onward, itself included), or
an evacuation node (address of the handle slot to be fixed up by sweep).
The slot is read and written atomically as a whole, which the embedding
reflects by treating the whole `Entry` as one value. -/
inductive Entry where
  | regular (value : Nat) (tag : Nat)
  | freelist (next : Nat) (size : Nat)
  | evacuation (handleLocation : Nat)
deriving DecidableEq, Repr

/-- `Entry::MakeRegularEntry(value, tag)`. -/
def Entry.makeRegularEntry (value tag : Nat) : Entry :=
  Entry.regular value tag

/-- `Entry::MakeEvacuationEntry(handle_location)`. -/
def Entry.makeEvacuationEntry (handleLocation : Nat) : Entry :=
  Entry.evacuation handleLocation

/-- `Entry::IsRegularEntry()`. -/
def Entry.isRegularEntry : Entry → Bool
  | .regular _ _ => true
  | _ => false

/-- `Entry::IsFreelistEntry()`. -/
def Entry.isFreelistEntry : Entry → Bool
  | .freelist _ _ => true
  | _ => false

/-- `Entry::IsEvacuationEntry()`. -/
def Entry.isEvacuationEntry : Entry → Bool
  | .evacuation _ => true
  | _ => false

/-- Modelled from the spec: `Entry::Untag(tag)` must assert that the stored
tag matches the requested tag before returning the raw pointer; a mismatch
is a fatal consistency violation (abort), modelled as `none`. A non-regular
entry likewise fails the consistency check. -/
def Entry.untag : Entry → Nat → Option Nat
  | .regular value tag, requested => if tag = requested then some value else none
  | _, _ => none

/-- Modelled from the spec: `Entry::SetMarkBit()` sets the GC mark bit carried
in the tag of a regular entry. -/
def Entry.setMarkBit : Entry → Entry
  | .regular value tag => .regular value (tag ||| kExternalPointerMarkBit)
  | e => e

/-- Modelled from the spec: `Entry::IsMarked()` — the mark bit of a regular
entry's tag. -/
def Entry.isMarked : Entry → Bool
  | .regular _ tag => tag &&& kExternalPointerMarkBit != 0
  | _ => false

/-- `Entry::ExtractNextFreelistEntry()`: the next-free index stored in a
freelist node. On a non-freelist bit pattern the extracted value is
meaningless; the code only relies on it when the freelist-head CAS succeeds
on a freelist node, and the model returns 0 in that case. -/
def Entry.extractNextFreelistEntry : Entry → Nat
  | .freelist next _ => next
  | _ => 0

/-- `Entry::ExtractFreelistSize()`: the size field stored in a freelist node. -/
def Entry.extractFreelistSize : Entry → Nat
  | .freelist _ size => size
  | _ => 0

/-- Modelled from the spec: `HandleToIndex` — the inverse of the fixed
handle = index × constant scaling. -/
def handleToIndex (handle : Nat) : Nat := handle / kHandleFactor

/-- Modelled from the spec: `IndexToHandle`. -/
def indexToHandle (index : Nat) : Nat := index * kHandleFactor

/-- The table: the entry array (addressed by index; capacity tracked
separately) plus the two atomic control words `freelist_head_` and
`start_of_evacuation_area`. -/
structure ExternalPointerTable where
  entries : Nat → Entry
  capacity : Nat
  freelist_head : Nat
  start_of_evacuation_area : Nat

/-- `ExternalPointerTable::Get(handle, tag)`: compute the index, load the
entry, check it is regular (a non-regular entry is a fatal consistency
violation, modelled as `none`) and untag it (a tag mismatch likewise
aborts, modelled as `none` inside `Entry.untag`). -/
def ExternalPointerTable.get (st : ExternalPointerTable) (handle tag : Nat) :
    Option Nat :=
  let index := handleToIndex handle
  let entry := st.entries index
  if entry.isRegularEntry then entry.untag tag else none

/-- `ExternalPointerTable::Set(handle, value, tag)`: the DCHECKed
preconditions (non-null handle, value free of tag-mask bits, tag carrying
the mark bit) are fatal when violated, modelled as `none`; otherwise the
regular entry is stored at the handle's index. -/
def ExternalPointerTable.set (st : ExternalPointerTable) (handle value tag : Nat) :
    Option ExternalPointerTable :=
  if handle = kNullExternalPointerHandle then none
  else if value &&& kExternalPointerTagMask ≠ 0 then none
  else if tag &&& kExternalPointerMarkBit = 0 then none
  else
    let index := handleToIndex handle
    let entry := Entry.makeRegularEntry value tag
    some { st with entries := Function.update st.entries index entry }

/-- `ExternalPointerTable::Exchange(handle, value, tag)`: same preconditions
as `Set`; atomically stores the new regular entry and returns the previous
entry's untagged value; a non-regular previous entry or a tag mismatch is a
fatal consistency violation (`none`). -/
def ExternalPointerTable.exchange (st : ExternalPointerTable)
    (handle value tag : Nat) : Option (Nat × ExternalPointerTable) :=
  if handle = kNullExternalPointerHandle then none
  else if value &&& kExternalPointerTagMask ≠ 0 then none
  else if tag &&& kExternalPointerMarkBit = 0 then none
  else
    let index := handleToIndex handle
    let new_entry := Entry.makeRegularEntry value tag
    let old_entry := st.entries index
    let st' : ExternalPointerTable :=
      { st with entries := Function.update st.entries index new_entry }
    if old_entry.isRegularEntry then
      (old_entry.untag tag).map (fun v => (v, st'))
    else none

/-- `ExternalPointerTable::TryAllocateEntryFromFreelist(freelist_head)`: read
the entry at `freelist_head`, extract its next-free index, and
compare-and-swap `freelist_head_` from `freelist_head` to that index. The
CAS is the only state change; it succeeds exactly when `freelist_head_`
still equals the expected head. Returns (success, table after the CAS). -/
def ExternalPointerTable.tryAllocateEntryFromFreelist
    (st : ExternalPointerTable) (freelist_head : Nat) :
    Bool × ExternalPointerTable :=
  let entry := st.entries freelist_head
  let new_freelist_head := entry.extractNextFreelistEntry
  if st.freelist_head = freelist_head then
    (true, { st with freelist_head := new_freelist_head })
  else (false, st)

/-- `ExternalPointerTable::AllocateEvacuationEntry(start_of_evacuation_area)`:
refuse (null handle) when the freelist head is zero or at or above the
boundary; otherwise claim the head. In the sequential model the claim loop
always succeeds on its first CAS (the head was just read), so the retry
branch is unreachable; interference on the CAS is analysed separately via
`tryAllocateEntryFromFreelist`. The table is never grown. -/
def ExternalPointerTable.allocateEvacuationEntry (st : ExternalPointerTable)
    (start_of_evacuation_area : Nat) : Option Nat × ExternalPointerTable :=
  let freelist_head := st.freelist_head
  if freelist_head = 0 ∨ start_of_evacuation_area ≤ freelist_head then
    (none, st)
  else
    let r := st.tryAllocateEntryFromFreelist freelist_head
    if r.1 then (some (indexToHandle freelist_head), r.2)
    else (none, r.2)

/-- `ExternalPointerTable::AllocateAndInitializeEntry` restricted to the
non-growing path: when the freelist is non-empty, claim the head and
overwrite the claimed slot with a regular entry. The growth path (empty
freelist) calls the external growth collaborator, which is outside the
excerpt; the model leaves the table unchanged there. As above, the
sequential claim loop succeeds on its first CAS. -/
def ExternalPointerTable.allocateAndInitEntry (st : ExternalPointerTable)
    (initial_value tag : Nat) : ExternalPointerTable :=
  let freelist_head := st.freelist_head
  if freelist_head = 0 then st
  else
    let r := st.tryAllocateEntryFromFreelist freelist_head
    if r.1 then
      let entry := Entry.makeRegularEntry initial_value tag
      { r.2 with entries := Function.update r.2.entries freelist_head entry }
    else r.2

/-- `ExternalPointerTable::FreelistSize()`: 0 when the head is zero,
otherwise the size stored in the head node. The code retries the load
until a freelist-shaped entry is observed; in the sequential model the
entry never changes under the loop, so observing a non-freelist entry at
the head means the loop never exits — modelled as `none` (divergence). -/
def ExternalPointerTable.freelistSize (st : ExternalPointerTable) :
    Option Nat :=
  let freelist_head := st.freelist_head
  if freelist_head = 0 then some 0
  else
    let entry := st.entries freelist_head
    if entry.isFreelistEntry then some entry.extractFreelistSize else none

/-- `RelaxedCompareAndSwap(index, old, new)` on one table slot: install `new`
when the slot still holds `old`, otherwise leave the slot unchanged; return
the value observed before the swap (the C++ CAS's return value) together
with the table afterwards. -/
def ExternalPointerTable.relaxedCompareAndSwapEntry
    (st : ExternalPointerTable) (index : Nat) (old_entry new_entry : Entry) :
    Entry × ExternalPointerTable :=
  let current := st.entries index
  if current = old_entry then
    (current, { st with entries := Function.update st.entries index new_entry })
  else (current, st)

/-- `ExternalPointerTable::IsCompacting()`. -/
def ExternalPointerTable.isCompacting (st : ExternalPointerTable) : Bool :=
  st.start_of_evacuation_area != kNotCompactingMarker

/-- `ExternalPointerTable::CompactingWasAbortedDuringMarking()`. -/
def ExternalPointerTable.compactingWasAbortedDuringMarking
    (st : ExternalPointerTable) : Bool :=
  st.start_of_evacuation_area &&& kCompactionAbortedMarker ==
    kCompactionAbortedMarker

/-- `ExternalPointerTable::Mark(handle, handle_location)`: if the handle's
index lies at or above the cached evacuation boundary, try to allocate an
evacuation slot below the boundary; on success store an evacuation node
recording `handle_location` at the new index (the debug-only visited-marker
write targets object memory outside the table and is not modelled); on
failure OR the abort marker into the boundary word. Regardless, mark the
original entry live with a single, never-retried compare-and-swap of its
marked copy. -/
def ExternalPointerTable.mark (st : ExternalPointerTable)
    (handle handle_location : Nat) : ExternalPointerTable :=
  let index := handleToIndex handle
  let current_start_of_evacuation_area := st.start_of_evacuation_area
  let st1 :=
    if current_start_of_evacuation_area ≤ index then
      let r := st.allocateEvacuationEntry current_start_of_evacuation_area
      match r.1 with
      | some new_handle =>
        let node := Entry.makeEvacuationEntry handle_location
        let j := handleToIndex new_handle
        { r.2 with entries := Function.update r.2.entries j node }
      | none =>
        let marker := current_start_of_evacuation_area ||| kCompactionAbortedMarker
        { r.2 with start_of_evacuation_area := marker }
    else st
  let old_entry := st1.entries index
  let new_entry := old_entry.setMarkBit
  (st1.relaxedCompareAndSwapEntry index old_entry new_entry).2

/-- The freelist chain: `FreelistChain entries l head` says that starting at
`head` and following next-free indices, the freelist nodes visited are
exactly the list `l` (in order), the chain terminates at index 0, and every
node on it stores as its size the number of freelist nodes reachable from
it onward, itself included. -/
inductive FreelistChain (entries : Nat → Entry) : List Nat → Nat → Prop where
  | nil : FreelistChain entries [] 0
  | cons {head next : Nat} {l : List Nat} :
      head ≠ 0 →
      entries head = Entry.freelist next (l.length + 1) →
      FreelistChain entries l next →
      FreelistChain entries (head :: l) head

/-- Freelist well-formedness of a table: some duplicate-free chain hangs off
`freelist_head_` (spec invariant 2: a simple singly linked acyclic chain
terminating at 0 whose node count equals the reported size). -/
def ExternalPointerTable.FreelistWF (st : ExternalPointerTable) : Prop :=
  ∃ l, FreelistChain st.entries l st.freelist_head ∧ l.Nodup

/-- Modelled from the spec: the sweep collaborator reclaims one dead entry
onto the freelist — overwrite it with a freelist node pointing at the
current head and carrying the incremented free count, then move the head to
it. Nothing happens on index 0 or an entry already freelist-shaped (sweep
only frees regular dead entries), or when the current freelist size cannot
be observed. -/
def ExternalPointerTable.freeEntry (st : ExternalPointerTable) (i : Nat) :
    ExternalPointerTable :=
  match st.freelistSize with
  | none => st
  | some n =>
    if i = 0 then st
    else if (st.entries i).isFreelistEntry then st
    else
      { st with
        entries := Function.update st.entries i
          (Entry.freelist st.freelist_head (n + 1)),
        freelist_head := i }

/-- One freelist-affecting operation: a (non-growing) allocation or a sweep
free. -/
inductive FreelistOp where
  | alloc (value tag : Nat)
  | free (i : Nat)

/-- Apply one freelist operation. -/
def ExternalPointerTable.applyFreelistOp (st : ExternalPointerTable) :
    FreelistOp → ExternalPointerTable
  | .alloc value tag => st.allocateAndInitEntry value tag
  | .free i => st.freeEntry i

/-- Apply a sequence of freelist operations. -/
def ExternalPointerTable.applyFreelistOps (st : ExternalPointerTable) :
    List FreelistOp → ExternalPointerTable
  | [] => st
  | op :: ops => (st.applyFreelistOp op).applyFreelistOps ops

/-- Modelled from the spec: a V8 String object, abstracted to the hash code
that `String::EnsureHash` (from string-inl.h, missing from the excerpt)
returns — EnsureHash computes the hash from the string's contents on first
use and caches it, so it is a pure function of the string, modelled here as
a stored value. -/
structure VString where
  hash : Nat
deriving DecidableEq, Repr

/-- Modelled from the spec: a heap object, which either is a string or is
not. -/
inductive HeapObject where
  | string (s : VString)
  | nonString
deriving DecidableEq, Repr

/-- Modelled from the spec: `String::cast(object)` — fatal (none) on a
non-string object. -/
def stringCast : HeapObject → Option VString
  | .string s => some s
  | .nonString => none

/-- `String::EnsureHash()` on the abstracted string. -/
def VString.ensureHash (s : VString) : Nat := s.hash

/-- Modelled from the spec: the read-only roots argument, unused by the
string-set shape functions. -/
structure ReadOnlyRoots where
  dummy : Unit

/-- `StringSetShape::Hash(roots, key)`: the key string's EnsureHash. -/
def StringSetShape.Hash (roots : ReadOnlyRoots) (key : VString) : Nat :=
  key.ensureHash

/-- `StringSetShape::HashForObject(roots, object)`: cast the stored object to
String (fatal on a non-string, hence `Option`) and take its EnsureHash. -/
def StringSetShape.HashForObject (roots : ReadOnlyRoots)
    (object : HeapObject) : Option Nat :=
  (stringCast object).map VString.ensureHash

/-- An example table for witnesses: every slot holds the same marked regular
entry; the freelist is empty and no compaction is active. -/
def exTable1 : ExternalPointerTable :=
  { entries := fun _ => Entry.regular 5 kExternalPointerMarkBit
    capacity := 4
    freelist_head := 0
    start_of_evacuation_area := kNotCompactingMarker }

theorem lor_and_self (a m : Nat) : (a ||| m) &&& m = m := by
  apply Nat.eq_of_testBit_eq
  intro i
  rw [Nat.testBit_land, Nat.testBit_lor]
  cases h : m.testBit i <;> simp [h]

theorem setMarkBit_regular (v t : Nat) :
    (Entry.regular v t).setMarkBit =
      Entry.regular v (t ||| kExternalPointerMarkBit) := rfl

theorem setMarkBit_isMarked {e : Entry} (he : e.isRegularEntry = true) :
    e.setMarkBit.isMarked = true := by
  cases e with
  | regular v t =>
    simp only [Entry.setMarkBit, Entry.isMarked, lor_and_self]
    decide
  | freelist next size => simp [Entry.isRegularEntry] at he
  | evacuation a => simp [Entry.isRegularEntry] at he

/-- C1: for every handle written as a regular entry with tag `t1`, `Get` or
`Exchange` with any tag `t2 ≠ t1` does not return a value: the tag-mismatch
check fails and the operation aborts (modelled as `none`); the untagged raw
pointer is never returned. -/
theorem get_exchange_tag_mismatch_aborts
    (st : ExternalPointerTable) (handle v t1 t2 v2 : Nat)
    (hentry : st.entries (handleToIndex handle) = Entry.makeRegularEntry v t1)
    (hne : t2 ≠ t1) :
    st.get handle t2 = none ∧ st.exchange handle v2 t2 = none := by
  constructor
  · simp [ExternalPointerTable.get, hentry, Entry.makeRegularEntry,
      Entry.isRegularEntry, Entry.untag, Ne.symm hne]
  · unfold ExternalPointerTable.exchange
    split
    · rfl
    · split
      · rfl
      · split
        · rfl
        · simp [hentry, Entry.makeRegularEntry, Entry.isRegularEntry,
            Entry.untag, Ne.symm hne]

theorem get_exchange_tag_mismatch_aborts_witness :
    exTable1.get 2 1 = none ∧ exTable1.exchange 2 0 1 = none :=
  get_exchange_tag_mismatch_aborts exTable1 2 5 kExternalPointerMarkBit 1 0
    rfl (by decide)

/-- C2: for every non-null handle, every value whose tag-mask bits are zero
and every tag carrying the mark bit, `Set(h, v, t)` followed by
`Get(h, t)` returns `v`. -/
theorem set_then_get_returns_value (st : ExternalPointerTable)
    (handle v t : Nat)
    (h0 : handle ≠ kNullExternalPointerHandle)
    (hv : v &&& kExternalPointerTagMask = 0)
    (ht : t &&& kExternalPointerMarkBit ≠ 0) :
    ∃ st', st.set handle v t = some st' ∧ st'.get handle t = some v := by
  unfold ExternalPointerTable.set
  rw [if_neg h0, if_neg (by simp [hv]), if_neg ht]
  refine ⟨_, rfl, ?_⟩
  simp [ExternalPointerTable.get, Entry.makeRegularEntry,
    Entry.isRegularEntry, Entry.untag]

theorem set_then_get_returns_value_witness :
    ∃ st', exTable1.set 2 0 kExternalPointerMarkBit = some st' ∧
      st'.get 2 kExternalPointerMarkBit = some 0 :=
  set_then_get_returns_value exTable1 2 0 kExternalPointerMarkBit
    (by decide) (by decide) (by decide)

theorem set_frame (st st1 : ExternalPointerTable) (handle v t j : Nat)
    (hset : st.set handle v t = some st1) (hj : j ≠ handleToIndex handle) :
    st1.entries j = st.entries j ∧
    st1.freelist_head = st.freelist_head ∧
    st1.start_of_evacuation_area = st.start_of_evacuation_area ∧
    st1.capacity = st.capacity := by
  unfold ExternalPointerTable.set at hset
  split at hset
  · exact absurd hset (by simp)
  · split at hset
    · exact absurd hset (by simp)
    · split at hset
      · exact absurd hset (by simp)
      · obtain rfl := Option.some.injEq .. ▸ hset
        simp_all [Function.update_noteq hj]

theorem exchange_frame (st st2 : ExternalPointerTable)
    (handle v t a j : Nat)
    (hex : st.exchange handle v t = some (a, st2))
    (hj : j ≠ handleToIndex handle) :
    st2.entries j = st.entries j ∧
    st2.freelist_head = st.freelist_head ∧
    st2.start_of_evacuation_area = st.start_of_evacuation_area ∧
    st2.capacity = st.capacity := by
  unfold ExternalPointerTable.exchange at hex
  split at hex
  · exact absurd hex (by simp)
  · split at hex
    · exact absurd hex (by simp)
    · split at hex
      · exact absurd hex (by simp)
      · dsimp only at hex
        split at hex
        · rw [Option.map_eq_some'] at hex
          obtain ⟨x, -, hx⟩ := hex
          obtain ⟨-, rfl⟩ := Prod.mk.injEq .. ▸ hx
          simp_all [Function.update_noteq hj]
        · exact absurd hex (by simp)

/-- C9: for every non-null handle, `Set` and `Exchange` modify only the table
entry at the handle's index: every entry at any other index `j`, the
freelist head word and the evacuation-boundary word (and the capacity) are
unchanged by the call. -/
theorem set_exchange_modify_only_own_index
    (st st1 st2 : ExternalPointerTable) (handle v t a j : Nat)
    (hset : st.set handle v t = some st1)
    (hex : st.exchange handle v t = some (a, st2))
    (hj : j ≠ handleToIndex handle) :
    (st1.entries j = st.entries j ∧ st2.entries j = st.entries j) ∧
    (st1.freelist_head = st.freelist_head ∧
      st2.freelist_head = st.freelist_head) ∧
    (st1.start_of_evacuation_area = st.start_of_evacuation_area ∧
      st2.start_of_evacuation_area = st.start_of_evacuation_area) ∧
    (st1.capacity = st.capacity ∧ st2.capacity = st.capacity) := by
  obtain ⟨e1, f1, s1, c1⟩ := set_frame st st1 handle v t j hset hj
  obtain ⟨e2, f2, s2, c2⟩ := exchange_frame st st2 handle v t a j hex hj
  exact ⟨⟨e1, e2⟩, ⟨f1, f2⟩, ⟨s1, s2⟩, ⟨c1, c2⟩⟩

/-- The table produced by writing value 0 with the mark-bit tag into
`exTable1` at handle 2 (index 1); `Set` and `Exchange` both produce it. -/
def exTable1Set : ExternalPointerTable :=
  let entry := Entry.makeRegularEntry 0 kExternalPointerMarkBit
  { exTable1 with entries := Function.update exTable1.entries 1 entry }

theorem set_exchange_modify_only_own_index_witness :
    (exTable1Set.entries 0 = exTable1.entries 0 ∧
      exTable1Set.entries 0 = exTable1.entries 0) ∧
    (exTable1Set.freelist_head = exTable1.freelist_head ∧
      exTable1Set.freelist_head = exTable1.freelist_head) ∧
    (exTable1Set.start_of_evacuation_area = exTable1.start_of_evacuation_area ∧
      exTable1Set.start_of_evacuation_area =
        exTable1.start_of_evacuation_area) ∧
    (exTable1Set.capacity = exTable1.capacity ∧
      exTable1Set.capacity = exTable1.capacity) :=
  set_exchange_modify_only_own_index exTable1 exTable1Set exTable1Set
    2 0 kExternalPointerMarkBit 5 0 (by rfl) (by rfl) (by decide)

theorem handleToIndex_indexToHandle (i : Nat) :
    handleToIndex (indexToHandle i) = i := by
  unfold handleToIndex indexToHandle kHandleFactor
  omega

theorem tryAllocate_eq (st : ExternalPointerTable) (e : Nat) :
    st.tryAllocateEntryFromFreelist e =
      if st.freelist_head = e then
        (true,
          { st with freelist_head := (st.entries e).extractNextFreelistEntry })
      else (false, st) := rfl

theorem allocateEvacuationEntry_eq (st : ExternalPointerTable) (b : Nat) :
    st.allocateEvacuationEntry b =
      if st.freelist_head = 0 ∨ b ≤ st.freelist_head then (none, st)
      else
        (some (indexToHandle st.freelist_head),
          { st with freelist_head :=
              (st.entries st.freelist_head).extractNextFreelistEntry }) := by
  unfold ExternalPointerTable.allocateEvacuationEntry
  simp only [tryAllocate_eq]
  split
  · rfl
  · simp

theorem allocateAndInitEntry_eq (st : ExternalPointerTable) (v t : Nat) :
    st.allocateAndInitEntry v t =
      if st.freelist_head = 0 then st
      else
        { st with
          entries := Function.update st.entries st.freelist_head
            (Entry.makeRegularEntry v t),
          freelist_head :=
            (st.entries st.freelist_head).extractNextFreelistEntry } := by
  unfold ExternalPointerTable.allocateAndInitEntry
  simp only [tryAllocate_eq]
  split
  · rfl
  · simp

/-- An example table for witnesses: a two-node freelist 1 → 2 → 0, the rest
regular marked entries. -/
def exTable2 : ExternalPointerTable :=
  { entries := fun i =>
      if i = 1 then Entry.freelist 2 2
      else if i = 2 then Entry.freelist 0 1
      else Entry.regular 5 kExternalPointerMarkBit
    capacity := 4
    freelist_head := 1
    start_of_evacuation_area := kNotCompactingMarker }

/-- C5: `AllocateEvacuationEntry(boundary)` returns the null handle exactly
when the freelist head is zero or at or above the boundary, never grows the
table (capacity and entries unchanged), and every non-null handle it
returns resolves to an index strictly below the boundary. -/
theorem allocateEvacuationEntry_below_boundary
    (st : ExternalPointerTable) (boundary h' : Nat) :
    ((st.allocateEvacuationEntry boundary).1 = none ↔
      (st.freelist_head = 0 ∨ boundary ≤ st.freelist_head)) ∧
    (st.allocateEvacuationEntry boundary).2.capacity = st.capacity ∧
    (st.allocateEvacuationEntry boundary).2.entries = st.entries ∧
    ((st.allocateEvacuationEntry boundary).1 = some h' →
      handleToIndex h' < boundary) := by
  rw [allocateEvacuationEntry_eq]
  split
  · next hguard => simpa using hguard
  · next hguard =>
    push_neg at hguard
    refine ⟨by simpa using hguard, rfl, rfl, ?_⟩
    intro hsome
    obtain rfl := Option.some.injEq .. ▸ hsome
    rw [handleToIndex_indexToHandle]
    exact hguard.2

theorem allocateEvacuationEntry_below_boundary_witness :
    ((exTable2.allocateEvacuationEntry 2).1 = none ↔
      (exTable2.freelist_head = 0 ∨ 2 ≤ exTable2.freelist_head)) ∧
    (exTable2.allocateEvacuationEntry 2).2.capacity = exTable2.capacity ∧
    (exTable2.allocateEvacuationEntry 2).2.entries = exTable2.entries ∧
    ((exTable2.allocateEvacuationEntry 2).1 = some (indexToHandle 1) →
      handleToIndex (indexToHandle 1) < 2) :=
  allocateEvacuationEntry_below_boundary exTable2 2 (indexToHandle 1)

/-- C7: `TryAllocateEntryFromFreelist(expected_head)` compare-and-swaps the
freelist head from `expected_head` to the node's next-free index; it
returns true exactly when `freelist_head_` still equalled `expected_head`,
on success the head moves to the node's next-free index, and (the node not
pointing back at itself, which acyclicity guarantees) an immediately
repeated claim of the same node fails — a given node is claimed at most
once. -/
theorem tryAllocateEntryFromFreelist_cas
    (st : ExternalPointerTable) (expected next sz : Nat)
    (hentry : st.entries expected = Entry.freelist next sz)
    (hne : next ≠ expected) :
    ((st.tryAllocateEntryFromFreelist expected).1 = true ↔
      st.freelist_head = expected) ∧
    ((st.tryAllocateEntryFromFreelist expected).1 = true →
      (st.tryAllocateEntryFromFreelist expected).2.freelist_head = next) ∧
    (st.freelist_head = expected →
      (((st.tryAllocateEntryFromFreelist expected).2).tryAllocateEntryFromFreelist
          expected).1 = false) := by
  simp only [tryAllocate_eq, hentry, Entry.extractNextFreelistEntry]
  by_cases h : st.freelist_head = expected
  · simp [h, hne]
  · simp [h]

theorem tryAllocateEntryFromFreelist_cas_witness :
    ((exTable2.tryAllocateEntryFromFreelist 1).1 = true ↔
      exTable2.freelist_head = 1) ∧
    ((exTable2.tryAllocateEntryFromFreelist 1).1 = true →
      (exTable2.tryAllocateEntryFromFreelist 1).2.freelist_head = 2) ∧
    (exTable2.freelist_head = 1 →
      (((exTable2.tryAllocateEntryFromFreelist 1).2).tryAllocateEntryFromFreelist
          1).1 = false) :=
  tryAllocateEntryFromFreelist_cas exTable2 1 2 2 rfl (by decide)

/-- Sequential characterization of `Mark`: the evacuation branch either
aborts compaction or moves the freelist head and plants an evacuation node
at the old head, and the final mark CAS (whose expected value was just
read, so it succeeds in the sequential model) installs the marked copy of
the original entry. -/
theorem mark_eq (st : ExternalPointerTable) (handle handle_location : Nat) :
    st.mark handle handle_location =
      (let index := handleToIndex handle
       let b := st.start_of_evacuation_area
       let st1 :=
         if b ≤ index then
           if st.freelist_head = 0 ∨ b ≤ st.freelist_head then
             { st with start_of_evacuation_area :=
                 b ||| kCompactionAbortedMarker }
           else
             { st with
               entries := Function.update st.entries st.freelist_head
                 (Entry.makeEvacuationEntry handle_location),
               freelist_head :=
                 (st.entries st.freelist_head).extractNextFreelistEntry }
         else st
       let marked := (st1.entries index).setMarkBit
       { st1 with entries := Function.update st1.entries index marked }) := by
  unfold ExternalPointerTable.mark ExternalPointerTable.relaxedCompareAndSwapEntry
  simp only [allocateEvacuationEntry_eq]
  by_cases h1 : st.start_of_evacuation_area ≤ handleToIndex handle
  · by_cases h2 : st.freelist_head = 0 ∨
        st.start_of_evacuation_area ≤ st.freelist_head
    · simp [h1, h2]
    · simp [h1, h2, handleToIndex_indexToHandle]
  · simp [h1]

/-- C3: (a) after a sequential `Mark` of a handle whose entry is regular,
the entry at the handle's index has its mark bit set; (b) the mark CAS is
attempted exactly once: if the slot still holds the value read, the marked
copy is installed; if it was concurrently overwritten — by a `Set` or
`Exchange`, which only store regular entries whose tag carries the mark
bit — the slot ends up marked anyway and the CAS failure changes nothing
and is not retried. -/
theorem mark_sets_mark_bit_cas_once
    (st stI : ExternalPointerTable) (handle handle_location index : Nat)
    (old_entry : Entry)
    (hreg : (st.entries (handleToIndex handle)).isRegularEntry = true)
    (hregold : old_entry.isRegularEntry = true)
    (hcur : stI.entries index = old_entry ∨
      ∃ v t, t &&& kExternalPointerMarkBit ≠ 0 ∧
        stI.entries index = Entry.makeRegularEntry v t) :
    ((st.mark handle handle_location).entries (handleToIndex handle)).isMarked
        = true ∧
    (((stI.relaxedCompareAndSwapEntry index old_entry
        old_entry.setMarkBit).2).entries index).isMarked = true ∧
    (stI.entries index ≠ old_entry →
      (stI.relaxedCompareAndSwapEntry index old_entry
        old_entry.setMarkBit).2 = stI) := by
  refine ⟨?_, ?_, ?_⟩
  · rw [mark_eq]
    dsimp only
    split
    · next hb =>
      split
      · next hguard =>
        simpa using setMarkBit_isMarked hreg
      · next hguard =>
        push_neg at hguard
        have hne : st.freelist_head ≠ handleToIndex handle := by
          intro h
          exact absurd hb (by omega)
        simp only [Function.update_same, Function.update_noteq (Ne.symm hne)]
        exact setMarkBit_isMarked hreg
    · simpa using setMarkBit_isMarked hreg
  · unfold ExternalPointerTable.relaxedCompareAndSwapEntry
    dsimp only
    by_cases hc : stI.entries index = old_entry
    · rw [if_pos hc]
      simpa using setMarkBit_isMarked hregold
    · rw [if_neg hc]
      rcases hcur with hcur | ⟨v, t, ht, hcur⟩
      · exact absurd hcur hc
      · simp [hcur, Entry.makeRegularEntry, Entry.isMarked, ht]
  · intro hc
    unfold ExternalPointerTable.relaxedCompareAndSwapEntry
    rw [if_neg hc]

theorem mark_sets_mark_bit_cas_once_witness :
    ((exTable1.mark 2 100).entries (handleToIndex 2)).isMarked = true ∧
    (((exTable1.relaxedCompareAndSwapEntry 1 (Entry.regular 7 0)
        (Entry.regular 7 0).setMarkBit).2).entries 1).isMarked = true ∧
    (exTable1.entries 1 ≠ Entry.regular 7 0 →
      (exTable1.relaxedCompareAndSwapEntry 1 (Entry.regular 7 0)
        (Entry.regular 7 0).setMarkBit).2 = exTable1) :=
  mark_sets_mark_bit_cas_once exTable1 exTable1 2 100 1 (Entry.regular 7 0)
    (by decide) (by decide)
    (Or.inr ⟨5, kExternalPointerMarkBit, by decide, rfl⟩)

/-- A compacting table for witnesses: boundary at index 1, empty freelist,
all entries regular and marked. -/
def exTable3 : ExternalPointerTable :=
  { entries := fun _ => Entry.regular 5 kExternalPointerMarkBit
    capacity := 4
    freelist_head := 0
    start_of_evacuation_area := 1 }

/-- An aborted-compaction table for witnesses. -/
def exTable4 : ExternalPointerTable :=
  { entries := fun _ => Entry.regular 5 kExternalPointerMarkBit
    capacity := 4
    freelist_head := 0
    start_of_evacuation_area := 1 ||| kCompactionAbortedMarker }

/-- C4: when `Mark` hits an index at or above the evacuation boundary and
`AllocateEvacuationEntry` returns the null handle (head zero or at/above
the boundary), the abort marker is OR-ed into the boundary word,
`CompactingWasAbortedDuringMarking` afterwards returns true, no evacuation
node is created (no entry other than the marked original changes, and the
freelist is untouched), and the transition is one-way: a further `Mark`
never clears the abort marker. -/
theorem mark_aborts_compaction
    (st st2 : ExternalPointerTable) (handle handle_location j h2 l2 : Nat)
    (hidx : st.start_of_evacuation_area ≤ handleToIndex handle)
    (hfree : st.freelist_head = 0 ∨
      st.start_of_evacuation_area ≤ st.freelist_head)
    (hj : j ≠ handleToIndex handle)
    (habort : st2.compactingWasAbortedDuringMarking = true) :
    (st.mark handle handle_location).start_of_evacuation_area =
      st.start_of_evacuation_area ||| kCompactionAbortedMarker ∧
    (st.mark handle handle_location).compactingWasAbortedDuringMarking
      = true ∧
    (st.mark handle handle_location).entries j = st.entries j ∧
    (st.mark handle handle_location).freelist_head = st.freelist_head ∧
    (st2.mark h2 l2).compactingWasAbortedDuringMarking = true := by
  refine ⟨?_, ?_, ?_, ?_, ?_⟩
  · rw [mark_eq]
    dsimp only
    rw [if_pos hidx, if_pos hfree]
  · rw [mark_eq]
    dsimp only
    rw [if_pos hidx, if_pos hfree]
    simp [ExternalPointerTable.compactingWasAbortedDuringMarking, lor_and_self]
  · rw [mark_eq]
    dsimp only
    rw [if_pos hidx, if_pos hfree]
    simp [Function.update_noteq hj]
  · rw [mark_eq]
    dsimp only
    rw [if_pos hidx, if_pos hfree]
  · rw [mark_eq]
    dsimp only
    unfold ExternalPointerTable.compactingWasAbortedDuringMarking at habort ⊢
    split
    · split
      · simp [lor_and_self]
      · simpa using habort
    · simpa using habort

theorem mark_aborts_compaction_witness :
    (exTable3.mark 2 100).start_of_evacuation_area =
      exTable3.start_of_evacuation_area ||| kCompactionAbortedMarker ∧
    (exTable3.mark 2 100).compactingWasAbortedDuringMarking = true ∧
    (exTable3.mark 2 100).entries 0 = exTable3.entries 0 ∧
    (exTable3.mark 2 100).freelist_head = exTable3.freelist_head ∧
    (exTable4.mark 2 100).compactingWasAbortedDuringMarking = true :=
  mark_aborts_compaction exTable3 exTable4 2 100 0 2 100
    (by decide) (Or.inl rfl) (by decide) (by decide)

/-- A compacting table for the evacuation witness: boundary at index 2, a
one-node freelist at index 1, regular marked entries elsewhere. -/
def exTable5 : ExternalPointerTable :=
  { entries := fun i =>
      if i = 1 then Entry.freelist 0 1
      else Entry.regular 5 kExternalPointerMarkBit
    capacity := 4
    freelist_head := 1
    start_of_evacuation_area := 2 }

/-- C6: when `Mark` hits an index at or above the evacuation boundary while
a free entry exists below the boundary, an evacuation node recording the
handle location appears at an index strictly below the boundary, and the
original entry remains a regular entry with its mark bit set. -/
theorem mark_evacuates_below_boundary
    (st : ExternalPointerTable) (handle handle_location v t : Nat)
    (hidx : st.start_of_evacuation_area ≤ handleToIndex handle)
    (hhead : st.freelist_head ≠ 0)
    (hlt : st.freelist_head < st.start_of_evacuation_area)
    (hentry : st.entries (handleToIndex handle) = Entry.regular v t) :
    ∃ j, j < st.start_of_evacuation_area ∧
      (st.mark handle handle_location).entries j =
        Entry.makeEvacuationEntry handle_location ∧
      (st.mark handle handle_location).entries (handleToIndex handle) =
        Entry.regular v (t ||| kExternalPointerMarkBit) ∧
      ((st.mark handle handle_location).entries
          (handleToIndex handle)).isRegularEntry = true ∧
      ((st.mark handle handle_location).entries
          (handleToIndex handle)).isMarked = true := by
  refine ⟨st.freelist_head, hlt, ?_⟩
  have hguard : ¬(st.freelist_head = 0 ∨
      st.start_of_evacuation_area ≤ st.freelist_head) := by
    push_neg
    exact ⟨hhead, hlt⟩
  have hne : st.freelist_head ≠ handleToIndex handle := by omega
  rw [mark_eq]
  dsimp only
  rw [if_pos hidx, if_neg hguard]
  refine ⟨?_, ?_, ?_, ?_⟩
  · simp only [Function.update_noteq hne, Function.update_same]
  · simp only [Function.update_same, Function.update_noteq (Ne.symm hne),
      hentry]
    rfl
  · simp only [Function.update_same, Function.update_noteq (Ne.symm hne),
      hentry]
    rfl
  · simp only [Function.update_same, Function.update_noteq (Ne.symm hne),
      hentry]
    exact setMarkBit_isMarked (e := Entry.regular v t) rfl

theorem mark_evacuates_below_boundary_witness :
    ∃ j, j < exTable5.start_of_evacuation_area ∧
      (exTable5.mark 4 100).entries j = Entry.makeEvacuationEntry 100 ∧
      (exTable5.mark 4 100).entries (handleToIndex 4) =
        Entry.regular 5 (kExternalPointerMarkBit ||| kExternalPointerMarkBit) ∧
      ((exTable5.mark 4 100).entries (handleToIndex 4)).isRegularEntry
        = true ∧
      ((exTable5.mark 4 100).entries (handleToIndex 4)).isMarked = true :=
  mark_evacuates_below_boundary exTable5 4 100 5 kExternalPointerMarkBit
    (by decide) (by decide) (by decide) rfl

theorem freelistChain_mem_isFreelist {entries : Nat → Entry} {l : List Nat}
    {head : Nat} (hc : FreelistChain entries l head) :
    ∀ x ∈ l, (entries x).isFreelistEntry = true := by
  induction hc with
  | nil => intro x hx; cases hx
  | cons h0 hentry hrest ih =>
    intro x hx
    rcases List.mem_cons.mp hx with rfl | hx
    · rw [hentry]; rfl
    · exact ih x hx

theorem freelistChain_update {entries : Nat → Entry} {l : List Nat}
    {head i : Nat} {e : Entry} (hc : FreelistChain entries l head)
    (hi : ∀ x ∈ l, x ≠ i) :
    FreelistChain (Function.update entries i e) l head := by
  induction hc with
  | nil => exact .nil
  | cons h0 hentry hrest ih =>
    refine .cons h0 ?_ (ih fun x hx => hi x (List.mem_cons_of_mem _ hx))
    rw [Function.update_noteq (hi _ (List.mem_cons_self _ _)), hentry]

theorem chain_head_cases {entries : Nat → Entry} {l : List Nat} {head : Nat}
    (hc : FreelistChain entries l head) :
    (head = 0 ∧ l = []) ∨
    (head ≠ 0 ∧ (entries head).isFreelistEntry = true ∧
      (entries head).extractFreelistSize = l.length) := by
  cases hc with
  | nil => exact Or.inl ⟨rfl, rfl⟩
  | cons h0 hentry hrest => refine Or.inr ⟨h0, ?_, ?_⟩ <;> rw [hentry] <;> rfl

theorem chain_cons_inversion {entries : Nat → Entry} {l : List Nat}
    {head : Nat} (hc : FreelistChain entries l head) (h0 : head ≠ 0) :
    ∃ next l', l = head :: l' ∧
      entries head = Entry.freelist next (l'.length + 1) ∧
      FreelistChain entries l' next := by
  cases hc with
  | nil => exact absurd rfl h0
  | cons h0' hentry hrest => exact ⟨_, _, rfl, hentry, hrest⟩

theorem freelistSize_of_chain {st : ExternalPointerTable} {l : List Nat}
    (hc : FreelistChain st.entries l st.freelist_head) :
    st.freelistSize = some l.length := by
  unfold ExternalPointerTable.freelistSize
  rcases chain_head_cases hc with ⟨h0, rfl⟩ | ⟨h0, hf, hsz⟩
  · rw [if_pos h0]
    rfl
  · rw [if_neg h0]
    simp [hf, hsz]

theorem freelistWF_alloc (st : ExternalPointerTable) (v t : Nat)
    (hwf : st.FreelistWF) : (st.allocateAndInitEntry v t).FreelistWF := by
  obtain ⟨l, hc, hnd⟩ := hwf
  rw [allocateAndInitEntry_eq]
  by_cases h0 : st.freelist_head = 0
  · rw [if_pos h0]; exact ⟨l, hc, hnd⟩
  · rw [if_neg h0]
    obtain ⟨next, l', rfl, hentry, hrest⟩ := chain_cons_inversion hc h0
    rw [List.nodup_cons] at hnd
    refine ⟨l', ?_, hnd.2⟩
    have hmem : ∀ x ∈ l', x ≠ st.freelist_head :=
      fun x hx heq => hnd.1 (heq ▸ hx)
    have h2 := freelistChain_update (i := st.freelist_head)
      (e := Entry.makeRegularEntry v t) hrest hmem
    show FreelistChain _ l' _
    simpa [hentry, Entry.extractNextFreelistEntry] using h2

theorem freelistWF_free (st : ExternalPointerTable) (i : Nat)
    (hwf : st.FreelistWF) : (st.freeEntry i).FreelistWF := by
  obtain ⟨l, hc, hnd⟩ := hwf
  unfold ExternalPointerTable.freeEntry
  rw [freelistSize_of_chain hc]
  dsimp only
  by_cases hi0 : i = 0
  · rw [if_pos hi0]; exact ⟨l, hc, hnd⟩
  · rw [if_neg hi0]
    by_cases hif : (st.entries i).isFreelistEntry = true
    · rw [if_pos hif]; exact ⟨l, hc, hnd⟩
    · rw [if_neg hif]
      have hnotmem : ∀ x ∈ l, x ≠ i := by
        intro x hx heq
        exact hif (heq ▸ freelistChain_mem_isFreelist hc x hx)
      refine ⟨i :: l, ?_,
        List.nodup_cons.mpr ⟨fun hmem => (hnotmem i hmem) rfl, hnd⟩⟩
      refine FreelistChain.cons hi0 ?_ (freelistChain_update hc hnotmem)
      simp only [Function.update_same]

theorem freelistWF_applyOps (st : ExternalPointerTable)
    (ops : List FreelistOp) (hwf : st.FreelistWF) :
    (st.applyFreelistOps ops).FreelistWF := by
  induction ops generalizing st with
  | nil => exact hwf
  | cons op ops ih =>
    refine ih _ ?_
    cases op with
    | alloc v t => exact freelistWF_alloc st v t hwf
    | free i => exact freelistWF_free st i hwf

/-- C8: `FreelistSize` returns 0 when the freelist head is zero and
otherwise the size stored in the head node, which — on a well-formed,
duplicate-free chain — equals the number of freelist nodes reachable from
the head to the terminator 0; the equality is preserved by any sequence of
(non-growing) allocations and sweep frees. -/
theorem freelistSize_counts_reachable_nodes
    (st : ExternalPointerTable) (ops : List FreelistOp) (l : List Nat)
    (hchain : FreelistChain st.entries l st.freelist_head)
    (hnd : l.Nodup) :
    (st.freelist_head = 0 → st.freelistSize = some 0) ∧
    st.freelistSize = some l.length ∧
    (∃ l', FreelistChain (st.applyFreelistOps ops).entries l'
        (st.applyFreelistOps ops).freelist_head ∧ l'.Nodup ∧
      (st.applyFreelistOps ops).freelistSize = some l'.length) := by
  refine ⟨?_, freelistSize_of_chain hchain, ?_⟩
  · intro h0
    unfold ExternalPointerTable.freelistSize
    rw [if_pos h0]
  · obtain ⟨l', hc', hnd'⟩ := freelistWF_applyOps st ops ⟨l, hchain, hnd⟩
    exact ⟨l', hc', hnd', freelistSize_of_chain hc'⟩

theorem freelistSize_counts_reachable_nodes_witness :
    (exTable5.freelist_head = 0 → exTable5.freelistSize = some 0) ∧
    exTable5.freelistSize = some ([1] : List Nat).length ∧
    (∃ l', FreelistChain
        (exTable5.applyFreelistOps
          [FreelistOp.alloc 7 kExternalPointerMarkBit,
            FreelistOp.free 3]).entries l'
        (exTable5.applyFreelistOps
          [FreelistOp.alloc 7 kExternalPointerMarkBit,
            FreelistOp.free 3]).freelist_head ∧ l'.Nodup ∧
      (exTable5.applyFreelistOps
          [FreelistOp.alloc 7 kExternalPointerMarkBit,
            FreelistOp.free 3]).freelistSize = some l'.length) :=
  freelistSize_counts_reachable_nodes exTable5
    [FreelistOp.alloc 7 kExternalPointerMarkBit, FreelistOp.free 3] [1]
    (FreelistChain.cons (by decide) rfl FreelistChain.nil) (by decide)

/-- C10: `StringSetShape::HashForObject` on a string object equals
`StringSetShape::Hash` on the same string — both return the string's
EnsureHash, so a string hashes identically as a lookup key and as a stored
element. -/
theorem hashForObject_eq_hash (roots : ReadOnlyRoots) (s : VString) :
    StringSetShape.HashForObject roots (HeapObject.string s) =
      some (StringSetShape.Hash roots s) := rfl
